import Mathlib

set_option linter.unusedVariables false

/-! Verification of the device-fleet monitoring core.

A shallow embedding of the in-memory aggregation store
(`internal/storage/memory.go`) and the pure statistics functions
(`internal/core/stats.go`) of the device-fleet monitoring service.

Modelling conventions:
* Go `int64` / `int` values are modelled as `ℤ` (no operation here comes
  near the 64-bit range on realistic inputs).
* Go `float64` values are modelled as exact rationals `ℚ`; every concrete
  value appearing in the claims (`0.0`, `100.0`, `150.0`, `75.0`, `20.0`)
  is exactly representable in binary64, so the rational model agrees with
  the floating-point evaluation on those inputs.
* A Go map `map[string]*DeviceAgg` becomes a function
  `String → Option DeviceAgg`; a Go set `map[int64]struct{}` becomes a
  `Finset ℤ`.
* Go integer division `/` on `int64` truncates toward zero, hence it is
  modelled by `Int.tdiv` (not by floor division `Int.fdiv`).
* Methods that can fail return the Go error value (`Option StorageErr`)
  together with the post-state of the receiver; `GetStats` also returns
  its two numeric results.  A method that returns early with an error
  leaves the receiver untouched, exactly as in the Go source.
-/

namespace DeviceFleet

/-- Error values declared in `internal/storage/store.go`
(`ErrDeviceNotFound`, `ErrInvalidInput`). -/
inductive StorageErr where
  | deviceNotFound : StorageErr
  | invalidInput : StorageErr
deriving DecidableEq

/-- Struct `DeviceAgg` from `internal/storage/memory.go`: aggregate data for a
single device (the `sync.RWMutex` field is a concurrency artefact with no
sequential meaning and is not modelled). -/
@[ext]
structure DeviceAgg where
  firstMinute : ℤ
  lastMinute : ℤ
  minutes : Finset ℤ
  uploadCount : ℤ
  uploadSum : ℚ
deriving DecidableEq

/-- Struct `memoryStore` from `internal/storage/memory.go`: the registry mapping
device identifiers to their aggregates. -/
@[ext]
structure MemStore where
  devices : String → Option DeviceAgg

/-- The zero-valued `DeviceAgg` built by `NewMemoryStore` for each id:
Go zero values for the integer fields, an empty `minutes` set. -/
def DeviceAgg.empty : DeviceAgg :=
  { firstMinute := 0, lastMinute := 0, minutes := ∅, uploadCount := 0, uploadSum := 0 }

/-- Function `NewMemoryStore(deviceIDs)`: one fresh aggregate per listed id
(duplicates collapse, as in the Go map). -/
def newMemoryStore (deviceIDs : List String) : MemStore :=
  ⟨fun id => if id ∈ deviceIDs then some DeviceAgg.empty else none⟩

/-- The minute bucket computed by `AddHeartbeat`:
`minute := sentAt.Unix() / 60`, Go division truncating toward zero. -/
def minuteBucket (epochSeconds : ℤ) : ℤ := Int.tdiv epochSeconds 60

/-- Overwrite one entry of the registry (the effect of mutating
`device` through the pointer stored in the map). -/
def setDevice (s : MemStore) (id : String) (d : DeviceAgg) : MemStore :=
  ⟨fun i => if i = id then some d else s.devices i⟩

/-- The body of `AddHeartbeat` once the device is found: update
`firstMinute`/`lastMinute`, then insert the minute into the set. -/
def updateHeartbeat (d : DeviceAgg) (minute : ℤ) : DeviceAgg :=
  let d' :=
    if d.minutes.card = 0 then
      { d with firstMinute := minute, lastMinute := minute }
    else
      { d with
        firstMinute := if minute < d.firstMinute then minute else d.firstMinute,
        lastMinute := if d.lastMinute < minute then minute else d.lastMinute }
  { d' with minutes := insert minute d'.minutes }

/-- Method `AddHeartbeat(ctx, deviceID, sentAt)`: returns the Go error value and
the post-state of the store. -/
def addHeartbeat (s : MemStore) (deviceID : String) (sentAt : ℤ) :
    Option StorageErr × MemStore :=
  match s.devices deviceID with
  | none => (some StorageErr.deviceNotFound, s)
  | some d => (none, setDevice s deviceID (updateHeartbeat d (minuteBucket sentAt)))

/-- The body of `AddUpload` once the device is found:
`uploadCount++; uploadSum += float64(uploadTime)`. -/
def updateUpload (d : DeviceAgg) (uploadTime : ℤ) : DeviceAgg :=
  { d with uploadCount := d.uploadCount + 1, uploadSum := d.uploadSum + (uploadTime : ℚ) }

/-- Method `AddUpload(ctx, deviceID, sentAt, uploadTime)`: `sentAt` is accepted
and ignored, exactly as in the Go source. -/
def addUpload (s : MemStore) (deviceID : String) (sentAt uploadTime : ℤ) :
    Option StorageErr × MemStore :=
  match s.devices deviceID with
  | none => (some StorageErr.deviceNotFound, s)
  | some _d =>
      (none, setDevice s deviceID (updateUpload _d uploadTime))

/-- Function `CalculateUptime` from `internal/core/stats.go`. -/
def calculateUptime (minutes : Finset ℤ) (firstMinute lastMinute : ℤ) : ℚ :=
  if minutes.card = 0 then 0
  else if firstMinute = lastMinute then 100
  else ((minutes.card : ℚ) / (((lastMinute - firstMinute : ℤ)) : ℚ)) * 100

/-- Function `CalculateAverageUpload` from `internal/core/stats.go`. -/
def calculateAverageUpload (uploadSum : ℚ) (uploadCount : ℤ) : ℚ :=
  if uploadCount = 0 then 0
  else uploadSum / (uploadCount : ℚ)

/-- Method `GetStats(ctx, deviceID)`: returns `(uptime, avgUpload, err)` and the
(unchanged) post-state of the store; the Go method only ever reads. -/
def getStats (s : MemStore) (deviceID : String) :
    (ℚ × ℚ × Option StorageErr) × MemStore :=
  match s.devices deviceID with
  | none => ((0, 0, some StorageErr.deviceNotFound), s)
  | some d =>
      ((calculateUptime d.minutes d.firstMinute d.lastMinute,
        calculateAverageUpload d.uploadSum d.uploadCount, none), s)

/-- One store operation, as issued by the request handlers. -/
inductive Op where
  | heartbeat (deviceID : String) (sentAt : ℤ) : Op
  | upload (deviceID : String) (sentAt uploadTime : ℤ) : Op
  | stats (deviceID : String) : Op

/-- The state transition of a single operation. -/
def runOp (s : MemStore) : Op → MemStore
  | Op.heartbeat id t => (addHeartbeat s id t).2
  | Op.upload id t u => (addUpload s id t u).2
  | Op.stats id => (getStats s id).2

/-- Run a sequence of operations from a given state. -/
def runOps (s : MemStore) (ops : List Op) : MemStore := ops.foldl runOp s

/-- States reachable from `NewMemoryStore ids` by any sequence of store
calls. -/
inductive Reachable (ids : List String) : MemStore → Prop where
  | init : Reachable ids (newMemoryStore ids)
  | step (s : MemStore) (op : Op) : Reachable ids s → Reachable ids (runOp s op)

/-- Fold a list of heartbeat timestamps for one device into the store. -/
def heartbeats (s : MemStore) (deviceID : String) (ts : List ℤ) : MemStore :=
  ts.foldl (fun s' t => (addHeartbeat s' deviceID t).2) s

/-- Does this operation record an upload for the given device? -/
def isUploadTo (deviceID : String) : Op → Bool
  | Op.upload i _ _ => i = deviceID
  | _ => false

/-! Basic lemmas about the store operations. -/

lemma setDevice_self (s : MemStore) (id : String) (d : DeviceAgg) :
    (setDevice s id d).devices id = some d := by
  simp [setDevice]

lemma setDevice_ne (s : MemStore) (id : String) (d : DeviceAgg) (i : String)
    (h : i ≠ id) : (setDevice s id d).devices i = s.devices i := by
  simp [setDevice, h]

lemma updateHeartbeat_minutes (d : DeviceAgg) (m : ℤ) :
    (updateHeartbeat d m).minutes = insert m d.minutes := by
  unfold updateHeartbeat
  by_cases hc : d.minutes.card = 0 <;> simp [hc]

lemma updateHeartbeat_uploadCount (d : DeviceAgg) (m : ℤ) :
    (updateHeartbeat d m).uploadCount = d.uploadCount := by
  unfold updateHeartbeat
  by_cases hc : d.minutes.card = 0 <;> simp [hc]

lemma updateHeartbeat_uploadSum (d : DeviceAgg) (m : ℤ) :
    (updateHeartbeat d m).uploadSum = d.uploadSum := by
  unfold updateHeartbeat
  by_cases hc : d.minutes.card = 0 <;> simp [hc]

lemma updateUpload_fields (d : DeviceAgg) (u : ℤ) :
    (updateUpload d u).minutes = d.minutes ∧
    (updateUpload d u).firstMinute = d.firstMinute ∧
    (updateUpload d u).lastMinute = d.lastMinute ∧
    (updateUpload d u).uploadCount = d.uploadCount + 1 ∧
    (updateUpload d u).uploadSum = d.uploadSum + (u : ℚ) := by
  simp [updateUpload]

lemma addHeartbeat_known {s : MemStore} {id : String} {d : DeviceAgg}
    (h : s.devices id = some d) (t : ℤ) :
    addHeartbeat s id t = (none, setDevice s id (updateHeartbeat d (minuteBucket t))) := by
  simp [addHeartbeat, h]

lemma addHeartbeat_unknown {s : MemStore} {id : String}
    (h : s.devices id = none) (t : ℤ) :
    addHeartbeat s id t = (some StorageErr.deviceNotFound, s) := by
  simp [addHeartbeat, h]

lemma addUpload_known {s : MemStore} {id : String} {d : DeviceAgg}
    (h : s.devices id = some d) (t u : ℤ) :
    addUpload s id t u = (none, setDevice s id (updateUpload d u)) := by
  simp [addUpload, h]

lemma addUpload_unknown {s : MemStore} {id : String}
    (h : s.devices id = none) (t u : ℤ) :
    addUpload s id t u = (some StorageErr.deviceNotFound, s) := by
  simp [addUpload, h]

lemma getStats_known {s : MemStore} {id : String} {d : DeviceAgg}
    (h : s.devices id = some d) :
    getStats s id =
      ((calculateUptime d.minutes d.firstMinute d.lastMinute,
        calculateAverageUpload d.uploadSum d.uploadCount, none), s) := by
  simp [getStats, h]

lemma getStats_unknown {s : MemStore} {id : String}
    (h : s.devices id = none) :
    getStats s id = ((0, 0, some StorageErr.deviceNotFound), s) := by
  simp [getStats, h]

lemma getStats_state (s : MemStore) (id : String) : (getStats s id).2 = s := by
  unfold getStats
  cases s.devices id <;> rfl

/-- The two update helpers written out as explicit records. -/
lemma updateHeartbeat_of_empty (d : DeviceAgg) (m : ℤ) (hc : d.minutes.card = 0) :
    updateHeartbeat d m =
      { firstMinute := m, lastMinute := m, minutes := insert m d.minutes,
        uploadCount := d.uploadCount, uploadSum := d.uploadSum } := by
  unfold updateHeartbeat
  simp [hc]

lemma updateHeartbeat_of_nonempty (d : DeviceAgg) (m : ℤ) (hc : d.minutes.card ≠ 0) :
    updateHeartbeat d m =
      { firstMinute := if m < d.firstMinute then m else d.firstMinute,
        lastMinute := if d.lastMinute < m then m else d.lastMinute,
        minutes := insert m d.minutes,
        uploadCount := d.uploadCount, uploadSum := d.uploadSum } := by
  unfold updateHeartbeat
  simp [hc]

/-- Every operation preserves which identifiers have an aggregate. -/
lemma runOp_none_iff (s : MemStore) (op : Op) (i : String) :
    ((runOp s op).devices i = none ↔ s.devices i = none) := by
  cases op with
  | heartbeat id t =>
      simp only [runOp]
      cases h : s.devices id with
      | none => rw [addHeartbeat_unknown h]
      | some d =>
          rw [addHeartbeat_known h]
          by_cases hi : i = id
          · subst hi; simp [setDevice_self, h]
          · simp [setDevice_ne _ _ _ _ hi]
  | upload id t u =>
      simp only [runOp]
      cases h : s.devices id with
      | none => rw [addUpload_unknown h]
      | some d =>
          rw [addUpload_known h]
          by_cases hi : i = id
          · subst hi; simp [setDevice_self, h]
          · simp [setDevice_ne _ _ _ _ hi]
  | stats id => simp only [runOp, getStats_state]

/-- In every reachable state, an identifier has an aggregate iff it was in
the initialization list. -/
lemma reachable_none_iff {ids : List String} {s : MemStore}
    (h : Reachable ids s) (id : String) :
    (s.devices id = none ↔ id ∉ ids) := by
  induction h with
  | init =>
      unfold newMemoryStore
      by_cases hm : id ∈ ids <;> simp [hm]
  | step s' op hr ih => rw [runOp_none_iff]; exact ih

/-! The per-aggregate window invariant. -/

/-- If any minute was recorded, `firstMinute`/`lastMinute` are members of
the minute set and bound every member. -/
def AggInv (d : DeviceAgg) : Prop :=
  d.minutes.Nonempty →
    d.firstMinute ∈ d.minutes ∧ d.lastMinute ∈ d.minutes ∧
    ∀ m ∈ d.minutes, d.firstMinute ≤ m ∧ m ≤ d.lastMinute

def StoreInv (s : MemStore) : Prop :=
  ∀ id d, s.devices id = some d → AggInv d

lemma aggInv_empty : AggInv DeviceAgg.empty := by
  intro h
  simp [DeviceAgg.empty] at h

lemma aggInv_updateHeartbeat {d : DeviceAgg} (hd : AggInv d) (m : ℤ) :
    AggInv (updateHeartbeat d m) := by
  intro _
  by_cases hc : d.minutes.card = 0
  · have hempty : d.minutes = ∅ := Finset.card_eq_zero.mp hc
    rw [updateHeartbeat_of_empty d m hc]
    simp [hempty]
  · have hne : d.minutes.Nonempty := Finset.card_ne_zero.mp hc
    obtain ⟨hf, hl, hb⟩ := hd hne
    rw [updateHeartbeat_of_nonempty d m hc]
    dsimp only
    refine ⟨?_, ?_, ?_⟩
    · split_ifs with hm
      · exact Finset.mem_insert_self _ _
      · exact Finset.mem_insert_of_mem hf
    · split_ifs with hm
      · exact Finset.mem_insert_self _ _
      · exact Finset.mem_insert_of_mem hl
    · intro x hx
      rcases Finset.mem_insert.mp hx with rfl | hx
      · constructor <;> split_ifs <;> omega
      · obtain ⟨h1, h2⟩ := hb x hx
        constructor <;> split_ifs <;> omega

lemma aggInv_updateUpload {d : DeviceAgg} (hd : AggInv d) (u : ℤ) :
    AggInv (updateUpload d u) := by
  intro h
  simp only [updateUpload] at h ⊢
  exact hd h

lemma storeInv_runOp {s : MemStore} (hs : StoreInv s) (op : Op) :
    StoreInv (runOp s op) := by
  cases op with
  | heartbeat id t =>
      intro i d hi
      simp only [runOp] at hi
      cases h : s.devices id with
      | none => rw [addHeartbeat_unknown h] at hi; exact hs i d hi
      | some d0 =>
          rw [addHeartbeat_known h] at hi
          by_cases he : i = id
          · subst he
            rw [setDevice_self] at hi
            cases hi
            exact aggInv_updateHeartbeat (hs i d0 h) _
          · rw [setDevice_ne _ _ _ _ he] at hi
            exact hs i d hi
  | upload id t u =>
      intro i d hi
      simp only [runOp] at hi
      cases h : s.devices id with
      | none => rw [addUpload_unknown h] at hi; exact hs i d hi
      | some d0 =>
          rw [addUpload_known h] at hi
          by_cases he : i = id
          · subst he
            rw [setDevice_self] at hi
            cases hi
            exact aggInv_updateUpload (hs i d0 h) _
          · rw [setDevice_ne _ _ _ _ he] at hi
            exact hs i d hi
  | stats id =>
      intro i d hi
      simp only [runOp, getStats_state] at hi
      exact hs i d hi

lemma reachable_storeInv {ids : List String} {s : MemStore}
    (h : Reachable ids s) : StoreInv s := by
  induction h with
  | init =>
      intro i d hi
      unfold newMemoryStore at hi
      by_cases hm : i ∈ ids
      · simp [hm] at hi
        cases hi
        exact aggInv_empty
      · simp [hm] at hi
  | step s' op hr ih => exact storeInv_runOp ih op

/-! Claims about the stats engine. -/

/-- C3: `CalculateUptime` returns 0 for an empty minute set regardless of
`firstMinute`/`lastMinute`; returns exactly 100 whenever
`firstMinute = lastMinute` and the set is non-empty; and otherwise returns
`(count / (lastMinute - firstMinute)) * 100` — in particular 150 for
minutes {0,1,2} with first=0, last=2, 75 for {0,2,4} with first=0, last=4,
and 20 for {0,10} with first=0, last=10. -/
theorem C3_uptime_cases :
    (∀ f l : ℤ, calculateUptime ∅ f l = 0) ∧
    (∀ (M : Finset ℤ) (f l : ℤ), M.Nonempty → f = l → calculateUptime M f l = 100) ∧
    (∀ (M : Finset ℤ) (f l : ℤ), M.Nonempty → f ≠ l →
      calculateUptime M f l = ((M.card : ℚ) / (((l - f : ℤ) : ℚ))) * 100) ∧
    calculateUptime {0, 1, 2} 0 2 = 150 ∧
    calculateUptime {0, 2, 4} 0 4 = 75 ∧
    calculateUptime {0, 10} 0 10 = 20 := by
  refine ⟨?_, ?_, ?_, ?_, ?_, ?_⟩
  · intro f l
    simp [calculateUptime]
  · intro M f l hM hfl
    simp [calculateUptime, Finset.card_ne_zero.mpr hM, hfl]
  · intro M f l hM hfl
    simp [calculateUptime, Finset.card_ne_zero.mpr hM, hfl]
  · norm_num [calculateUptime]
  · norm_num [calculateUptime]
  · norm_num [calculateUptime]

theorem C3_uptime_cases_witness :
    ({0, 2, 4} : Finset ℤ).Nonempty ∧ (0 : ℤ) ≠ 4 ∧
    calculateUptime {0, 2, 4} 0 4 =
      ((({0, 2, 4} : Finset ℤ).card : ℚ) / ((((4 : ℤ) - 0 : ℤ) : ℚ))) * 100 :=
  ⟨by decide, by decide, C3_uptime_cases.2.2.1 {0, 2, 4} 0 4 (by decide) (by decide)⟩

/-- C4: `CalculateAverageUpload` returns 0 whenever the count is 0 (for any
sum) and otherwise returns `sum / count` unrounded; for sum = 250, count = 3
the exact value is 250/3, which lies within one binary64 ulp (2^-46 at this
magnitude) of the shortest decimal rendering 83.33333333333333 of the
float64 result. -/
theorem C4_average_upload :
    (∀ sum : ℚ, calculateAverageUpload sum 0 = 0) ∧
    (∀ (sum : ℚ) (count : ℤ), count ≠ 0 →
      calculateAverageUpload sum count = sum / (count : ℚ)) ∧
    calculateAverageUpload 250 3 = 250 / 3 ∧
    |calculateAverageUpload 250 3 - 8333333333333333 / 100000000000000| <
      1 / 2 ^ 46 := by
  refine ⟨?_, ?_, ?_, ?_⟩
  · intro sum
    simp [calculateAverageUpload]
  · intro sum count h
    simp [calculateAverageUpload, h]
  · norm_num [calculateAverageUpload]
  · rw [abs_sub_lt_iff]
    norm_num [calculateAverageUpload]

theorem C4_average_upload_witness :
    (3 : ℤ) ≠ 0 ∧ calculateAverageUpload 250 3 = 250 / ((3 : ℤ) : ℚ) :=
  ⟨by decide, C4_average_upload.2.1 250 3 (by decide)⟩

/-- C9: for every non-empty minute set whose cardinality is at most
`lastMinute - firstMinute`, `CalculateUptime` returns a value in `(0, 100]`. -/
theorem C9_uptime_bounded (M : Finset ℤ) (f l : ℤ) (hM : M.Nonempty)
    (h : (M.card : ℤ) ≤ l - f) :
    0 < calculateUptime M f l ∧ calculateUptime M f l ≤ 100 := by
  have hcard : 0 < M.card := hM.card_pos
  have hfl : f ≠ l := by
    intro he
    omega
  unfold calculateUptime
  rw [if_neg (by omega), if_neg hfl]
  have hspan : (0 : ℚ) < ((l - f : ℤ) : ℚ) := by
    have h1 : (1 : ℤ) ≤ l - f := by omega
    exact_mod_cast lt_of_lt_of_le Int.zero_lt_one h1
  have hc : (0 : ℚ) < (M.card : ℚ) := by exact_mod_cast hcard
  constructor
  · exact mul_pos (div_pos hc hspan) (by norm_num)
  · have hle : (M.card : ℚ) ≤ ((l - f : ℤ) : ℚ) := by exact_mod_cast h
    have hdiv : (M.card : ℚ) / ((l - f : ℤ) : ℚ) ≤ 1 := (div_le_one hspan).mpr hle
    calc (M.card : ℚ) / ((l - f : ℤ) : ℚ) * 100 ≤ 1 * 100 :=
          mul_le_mul_of_nonneg_right hdiv (by norm_num)
      _ = 100 := by norm_num

theorem C9_uptime_bounded_witness :
    ({0, 2, 4} : Finset ℤ).Nonempty ∧
    ((({0, 2, 4} : Finset ℤ).card : ℤ) ≤ 4 - 0) ∧
    (0 < calculateUptime {0, 2, 4} 0 4 ∧ calculateUptime {0, 2, 4} 0 4 ≤ 100) :=
  ⟨by decide, by decide, C9_uptime_bounded {0, 2, 4} 0 4 (by decide) (by decide)⟩

/-! Claims about the store operations. -/

/-- C1 (amended): the minute bucket recorded by `AddHeartbeat` is
`epochSeconds / 60` with Go integer division, which truncates toward zero
(`Int.tdiv`); this coincides with floor division for every non-negative
epoch-seconds value, but not for negative ones that are not multiples
of 60. -/
theorem C1_minute_bucket_truncated (s : MemStore) (id : String) (e : ℤ)
    (d : DeviceAgg) (hd : s.devices id = some d) :
    (∃ d', (addHeartbeat s id e).2.devices id = some d' ∧
      d'.minutes = insert (Int.tdiv e 60) d.minutes) ∧
    (0 ≤ e → Int.tdiv e 60 = Int.fdiv e 60) := by
  constructor
  · refine ⟨updateHeartbeat d (minuteBucket e), ?_, ?_⟩
    · rw [addHeartbeat_known hd]
      exact setDevice_self s id _
    · rw [updateHeartbeat_minutes]
      rfl
  · intro he
    rw [Int.tdiv_eq_ediv he (by norm_num), Int.fdiv_eq_ediv e (by norm_num)]

theorem C1_minute_bucket_truncated_witness :
    (newMemoryStore ["d"]).devices "d" = some DeviceAgg.empty ∧
    (∃ d', (addHeartbeat (newMemoryStore ["d"]) "d" 90).2.devices "d" = some d' ∧
      d'.minutes = insert (Int.tdiv 90 60) DeviceAgg.empty.minutes) ∧
    ((0 : ℤ) ≤ 90 → Int.tdiv 90 60 = Int.fdiv 90 60) :=
  ⟨by decide,
    (C1_minute_bucket_truncated (newMemoryStore ["d"]) "d" 90 DeviceAgg.empty
      (by decide)).1,
    (C1_minute_bucket_truncated (newMemoryStore ["d"]) "d" 90 DeviceAgg.empty
      (by decide)).2⟩

/-- C1, counterexample to the claim as stated: for the heartbeat timestamp
with epoch seconds −61, floor division gives bucket −2, but the store
records bucket −1 (Go division truncates toward zero), so the recorded
minute bucket is not `floor(epochSeconds / 60)`. -/
theorem C1_floor_counterexample :
    ∃ d', (addHeartbeat (newMemoryStore ["d"]) "d" (-61)).2.devices "d" = some d' ∧
      d'.minutes = {-1} ∧ Int.fdiv (-61) 60 = -2 ∧ (-2 : ℤ) ∉ d'.minutes := by
  refine ⟨⟨-1, -1, {-1}, 0, 0⟩, by decide, rfl, by decide, by decide⟩

/-- C2: any operation against an identifier absent from the initialization
list fails with `DeviceNotFound` and leaves the store, and hence every
device aggregate, exactly as it was — in every reachable state. -/
theorem C2_unknown_device (ids : List String) (s : MemStore)
    (hs : Reachable ids s) (id : String) (hid : id ∉ ids) (t u : ℤ) :
    addHeartbeat s id t = (some StorageErr.deviceNotFound, s) ∧
    addUpload s id t u = (some StorageErr.deviceNotFound, s) ∧
    getStats s id = ((0, 0, some StorageErr.deviceNotFound), s) := by
  have hnone : s.devices id = none := (reachable_none_iff hs id).mpr hid
  exact ⟨addHeartbeat_unknown hnone t, addUpload_unknown hnone t u,
    getStats_unknown hnone⟩

theorem C2_unknown_device_witness :
    addHeartbeat (newMemoryStore ["a"]) "b" 0 =
      (some StorageErr.deviceNotFound, newMemoryStore ["a"]) ∧
    addUpload (newMemoryStore ["a"]) "b" 0 0 =
      (some StorageErr.deviceNotFound, newMemoryStore ["a"]) ∧
    getStats (newMemoryStore ["a"]) "b" =
      ((0, 0, some StorageErr.deviceNotFound), newMemoryStore ["a"]) :=
  C2_unknown_device ["a"] (newMemoryStore ["a"]) Reachable.init "b" (by decide) 0 0

/-- C5: in every state reachable from initialization, every device
aggregate with a non-empty minute set has `firstMinute ≤ lastMinute`, and
both bounds are elements of the minute set (which holds exactly the
inserted buckets — nothing is ever evicted). -/
theorem C5_window_invariant (ids : List String) (s : MemStore)
    (hs : Reachable ids s) (id : String) (d : DeviceAgg)
    (hd : s.devices id = some d) (hne : d.minutes.Nonempty) :
    d.firstMinute ≤ d.lastMinute ∧
    d.firstMinute ∈ d.minutes ∧ d.lastMinute ∈ d.minutes := by
  obtain ⟨hf, hl, hb⟩ := reachable_storeInv hs id d hd hne
  exact ⟨(hb d.firstMinute hf).2, hf, hl⟩

theorem C5_window_invariant_witness :
    ∃ d, (runOp (newMemoryStore ["d"]) (Op.heartbeat "d" 60)).devices "d" = some d ∧
      (d.firstMinute ≤ d.lastMinute ∧
        d.firstMinute ∈ d.minutes ∧ d.lastMinute ∈ d.minutes) :=
  ⟨⟨1, 1, {1}, 0, 0⟩, by decide,
    C5_window_invariant ["d"] _
      (Reachable.step _ (Op.heartbeat "d" 60) Reachable.init) "d"
      ⟨1, 1, {1}, 0, 0⟩ (by decide) (by decide)⟩

/-- C6: recording a heartbeat whose minute bucket is already present for a
known device is a complete no-op — the returned error is `none` and the
whole store (minutes set, `firstMinute`, `lastMinute`, everything) is
unchanged. -/
theorem C6_idempotent_heartbeat (ids : List String) (s : MemStore)
    (hs : Reachable ids s) (id : String) (d : DeviceAgg)
    (hd : s.devices id = some d) (t : ℤ) (hmem : minuteBucket t ∈ d.minutes) :
    addHeartbeat s id t = (none, s) := by
  have hne : d.minutes.Nonempty := ⟨_, hmem⟩
  obtain ⟨hf, hl, hb⟩ := reachable_storeInv hs id d hd hne
  obtain ⟨h1, h2⟩ := hb _ hmem
  have hupd : updateHeartbeat d (minuteBucket t) = d := by
    rw [updateHeartbeat_of_nonempty _ _ (Finset.card_ne_zero.mpr hne),
      if_neg (not_lt.mpr h1), if_neg (not_lt.mpr h2),
      Finset.insert_eq_self.mpr hmem]
  have hset : setDevice s id d = s := by
    ext i
    by_cases hi : i = id
    · subst hi
      rw [setDevice_self, hd]
    · rw [setDevice_ne _ _ _ _ hi]
  rw [addHeartbeat_known hd, hupd, hset]

theorem C6_idempotent_heartbeat_witness :
    addHeartbeat (runOp (newMemoryStore ["d"]) (Op.heartbeat "d" 60)) "d" 90 =
      (none, runOp (newMemoryStore ["d"]) (Op.heartbeat "d" 60)) ∧
    ∃ d, (runOp (newMemoryStore ["d"]) (Op.heartbeat "d" 60)).devices "d" = some d ∧
      d.minutes.card = 1 :=
  ⟨C6_idempotent_heartbeat ["d"] _
      (Reachable.step _ (Op.heartbeat "d" 60) Reachable.init) "d"
      ⟨1, 1, {1}, 0, 0⟩ (by decide) 90 (by decide),
    ⟨1, 1, {1}, 0, 0⟩, by decide, by decide⟩

/-- C10: exact frame of each operation on a known device: `AddHeartbeat`
leaves the device's upload fields and every other device untouched;
`AddUpload` leaves the device's heartbeat fields and every other device
untouched; `GetStats` leaves the whole store untouched. -/
theorem C10_operation_frames (s : MemStore) (id : String) (d : DeviceAgg)
    (hd : s.devices id = some d) (t u : ℤ) :
    ((∀ i, i ≠ id → (addHeartbeat s id t).2.devices i = s.devices i) ∧
      ∃ d', (addHeartbeat s id t).2.devices id = some d' ∧
        d'.uploadCount = d.uploadCount ∧ d'.uploadSum = d.uploadSum) ∧
    ((∀ i, i ≠ id → (addUpload s id t u).2.devices i = s.devices i) ∧
      ∃ d', (addUpload s id t u).2.devices id = some d' ∧
        d'.minutes = d.minutes ∧ d'.firstMinute = d.firstMinute ∧
        d'.lastMinute = d.lastMinute) ∧
    (getStats s id).2 = s := by
  refine ⟨⟨?_, ?_⟩, ⟨?_, ?_⟩, getStats_state s id⟩
  · intro i hi
    rw [addHeartbeat_known hd]
    exact setDevice_ne _ _ _ _ hi
  · refine ⟨updateHeartbeat d (minuteBucket t), ?_,
      updateHeartbeat_uploadCount d _, updateHeartbeat_uploadSum d _⟩
    rw [addHeartbeat_known hd]
    exact setDevice_self s id _
  · intro i hi
    rw [addUpload_known hd]
    exact setDevice_ne _ _ _ _ hi
  · refine ⟨updateUpload d u, ?_, (updateUpload_fields d u).1,
      (updateUpload_fields d u).2.1, (updateUpload_fields d u).2.2.1⟩
    rw [addUpload_known hd]
    exact setDevice_self s id _

theorem C10_operation_frames_witness :
    (addHeartbeat (newMemoryStore ["a", "b"]) "a" 60).2.devices "b" =
      (newMemoryStore ["a", "b"]).devices "b" ∧
    (∃ d', (addUpload (newMemoryStore ["a", "b"]) "a" 0 5).2.devices "a" = some d' ∧
      d'.minutes = DeviceAgg.empty.minutes ∧
      d'.firstMinute = DeviceAgg.empty.firstMinute ∧
      d'.lastMinute = DeviceAgg.empty.lastMinute) ∧
    (getStats (newMemoryStore ["a", "b"]) "a").2 = newMemoryStore ["a", "b"] :=
  ⟨(C10_operation_frames (newMemoryStore ["a", "b"]) "a" DeviceAgg.empty
      (by decide) 60 5).1.1 "b" (by decide),
    (C10_operation_frames (newMemoryStore ["a", "b"]) "a" DeviceAgg.empty
      (by decide) 60 5).2.1.2,
    (C10_operation_frames (newMemoryStore ["a", "b"]) "a" DeviceAgg.empty
      (by decide) 60 5).2.2⟩

/-! Commutativity of heartbeat recording. -/

lemma setDevice_setDevice (s : MemStore) (id : String) (d1 d2 : DeviceAgg) :
    setDevice (setDevice s id d1) id d2 = setDevice s id d2 := by
  ext i
  by_cases hi : i = id <;> simp [setDevice, hi]

lemma updateHeartbeat_comm (d : DeviceAgg) (m1 m2 : ℤ) :
    updateHeartbeat (updateHeartbeat d m1) m2 =
      updateHeartbeat (updateHeartbeat d m2) m1 := by
  have hins : ∀ m : ℤ, (insert m d.minutes).card ≠ 0 :=
    fun m => Finset.card_ne_zero.mpr (Finset.insert_nonempty m d.minutes)
  by_cases hc : d.minutes.card = 0
  · rw [updateHeartbeat_of_empty d m1 hc, updateHeartbeat_of_empty d m2 hc]
    rw [updateHeartbeat_of_nonempty _ m2 (hins m1),
      updateHeartbeat_of_nonempty _ m1 (hins m2)]
    simp only [DeviceAgg.mk.injEq, and_true]
    exact ⟨by split_ifs <;> omega, by split_ifs <;> omega,
      Finset.Insert.comm m2 m1 d.minutes⟩
  · rw [updateHeartbeat_of_nonempty d m1 hc, updateHeartbeat_of_nonempty d m2 hc]
    rw [updateHeartbeat_of_nonempty _ m2 (hins m1),
      updateHeartbeat_of_nonempty _ m1 (hins m2)]
    simp only [DeviceAgg.mk.injEq, and_true]
    exact ⟨by split_ifs <;> omega, by split_ifs <;> omega,
      Finset.Insert.comm m2 m1 d.minutes⟩

lemma addHeartbeat_comm (s : MemStore) (id : String) (t1 t2 : ℤ) :
    (addHeartbeat (addHeartbeat s id t1).2 id t2).2 =
      (addHeartbeat (addHeartbeat s id t2).2 id t1).2 := by
  cases h : s.devices id with
  | none => simp [addHeartbeat_unknown h]
  | some d =>
      rw [addHeartbeat_known h]
      rw [addHeartbeat_known h (t := t2)]
      dsimp only
      rw [addHeartbeat_known (setDevice_self s id _) (t := t2),
        addHeartbeat_known (setDevice_self s id _) (t := t1)]
      dsimp only
      rw [setDevice_setDevice, setDevice_setDevice, updateHeartbeat_comm]

lemma heartbeats_perm {ts ts' : List ℤ} (h : ts.Perm ts') (s : MemStore)
    (id : String) : heartbeats s id ts = heartbeats s id ts' := by
  unfold heartbeats
  exact @List.Perm.foldl_eq _ _ _ _ _
    ⟨fun s' t1 t2 => addHeartbeat_comm s' id t1 t2⟩ h s

lemma heartbeats_devices (id : String) : ∀ (ts : List ℤ) (s : MemStore)
    (d : DeviceAgg), s.devices id = some d →
    ∃ d', (heartbeats s id ts).devices id = some d' ∧
      d'.minutes = d.minutes ∪ (ts.map minuteBucket).toFinset ∧
      d'.uploadCount = d.uploadCount ∧ d'.uploadSum = d.uploadSum ∧
      (AggInv d → AggInv d') := by
  intro ts
  induction ts with
  | nil =>
      intro s d hd
      exact ⟨d, hd, by simp [heartbeats], rfl, rfl, fun h => h⟩
  | cons t ts ih =>
      intro s d hd
      have step : heartbeats s id (t :: ts) =
          heartbeats (setDevice s id (updateHeartbeat d (minuteBucket t))) id ts := by
        simp [heartbeats, addHeartbeat_known hd]
      rw [step]
      obtain ⟨d', hd', hm, hc, hs', hinv⟩ := ih _ _ (setDevice_self s id _)
      refine ⟨d', hd', ?_, by rw [hc, updateHeartbeat_uploadCount],
        by rw [hs', updateHeartbeat_uploadSum], ?_⟩
      · rw [hm, updateHeartbeat_minutes]
        simp only [List.map_cons, List.toFinset_cons]
        rw [Finset.insert_union, Finset.union_insert]
      · intro hinv0
        exact hinv (aggInv_updateHeartbeat hinv0 _)

/-- C7: heartbeat recording for one known device is order-independent: any
permutation of the timestamps yields the same final store, the final
minutes set is exactly the set of all inserted buckets, and
`firstMinute`/`lastMinute` are its minimum and maximum. -/
theorem C7_heartbeats_commute (ids : List String) (id : String)
    (ts ts' : List ℤ) (hid : id ∈ ids) (hts : ts ≠ []) (hperm : ts.Perm ts') :
    heartbeats (newMemoryStore ids) id ts = heartbeats (newMemoryStore ids) id ts' ∧
    ∃ d, (heartbeats (newMemoryStore ids) id ts).devices id = some d ∧
      d.minutes = (ts.map minuteBucket).toFinset ∧
      d.firstMinute ∈ d.minutes ∧ d.lastMinute ∈ d.minutes ∧
      ∀ m ∈ d.minutes, d.firstMinute ≤ m ∧ m ≤ d.lastMinute := by
  refine ⟨heartbeats_perm hperm _ _, ?_⟩
  have hd0 : (newMemoryStore ids).devices id = some DeviceAgg.empty := by
    unfold newMemoryStore
    simp [hid]
  obtain ⟨d, hd, hm, _, _, hinv⟩ := heartbeats_devices id ts _ _ hd0
  have hm' : d.minutes = (ts.map minuteBucket).toFinset := by
    simpa [DeviceAgg.empty] using hm
  have hne : d.minutes.Nonempty := by
    rw [hm']
    cases ts with
    | nil => exact absurd rfl hts
    | cons a l => exact ⟨minuteBucket a, by simp⟩
  obtain ⟨hf, hl, hb⟩ := hinv aggInv_empty hne
  exact ⟨d, hd, hm', hf, hl, hb⟩

theorem C7_heartbeats_commute_witness :
    heartbeats (newMemoryStore ["d"]) "d" [60, 180] =
      heartbeats (newMemoryStore ["d"]) "d" [180, 60] ∧
    ∃ d, (heartbeats (newMemoryStore ["d"]) "d" [60, 180]).devices "d" = some d ∧
      d.minutes = ([60, 180].map minuteBucket).toFinset ∧
      d.firstMinute ∈ d.minutes ∧ d.lastMinute ∈ d.minutes ∧
      ∀ m ∈ d.minutes, d.firstMinute ≤ m ∧ m ≤ d.lastMinute :=
  C7_heartbeats_commute ["d"] "d" [60, 180] [180, 60] (by decide) (by decide)
    (by decide)

/-! Upload accounting across arbitrary call sequences. -/

lemma runOp_uploadCount {s : MemStore} {id : String} {d : DeviceAgg}
    (hd : s.devices id = some d) (op : Op) :
    ∃ d', (runOp s op).devices id = some d' ∧
      d'.uploadCount = d.uploadCount + (if isUploadTo id op then 1 else 0) := by
  cases op with
  | heartbeat id2 t =>
      simp only [runOp]
      have hgoal : d.uploadCount +
          (if isUploadTo id (Op.heartbeat id2 t) then 1 else 0) = d.uploadCount := by
        simp [isUploadTo]
      rw [hgoal]
      cases h : s.devices id2 with
      | none =>
          rw [addHeartbeat_unknown h]
          exact ⟨d, hd, rfl⟩
      | some d2 =>
          rw [addHeartbeat_known h]
          by_cases hi : id = id2
          · subst hi
            rw [hd] at h
            cases h
            exact ⟨updateHeartbeat d _, setDevice_self _ _ _,
              updateHeartbeat_uploadCount d _⟩
          · exact ⟨d, by rw [setDevice_ne _ _ _ _ hi, hd], rfl⟩
  | upload id2 t u =>
      simp only [runOp]
      by_cases hi : id = id2
      · subst hi
        have hgoal : d.uploadCount +
            (if isUploadTo id (Op.upload id t u) then 1 else 0) = d.uploadCount + 1 := by
          simp [isUploadTo]
        rw [hgoal, addUpload_known hd]
        exact ⟨updateUpload d u, setDevice_self _ _ _, rfl⟩
      · have hgoal : d.uploadCount +
            (if isUploadTo id (Op.upload id2 t u) then 1 else 0) = d.uploadCount := by
          simp [isUploadTo, Ne.symm hi]
        rw [hgoal]
        cases h : s.devices id2 with
        | none =>
            rw [addUpload_unknown h]
            exact ⟨d, hd, rfl⟩
        | some d2 =>
            rw [addUpload_known h]
            exact ⟨d, by rw [setDevice_ne _ _ _ _ hi, hd], rfl⟩
  | stats id2 =>
      simp only [runOp, getStats_state]
      have hgoal : d.uploadCount +
          (if isUploadTo id (Op.stats id2) then 1 else 0) = d.uploadCount := by
        simp [isUploadTo]
      rw [hgoal]
      exact ⟨d, hd, rfl⟩

lemma runOps_uploadCount (id : String) : ∀ (ops : List Op) (s : MemStore)
    (d : DeviceAgg), s.devices id = some d →
    ∃ d', (runOps s ops).devices id = some d' ∧
      d'.uploadCount = d.uploadCount + ((ops.filter (isUploadTo id)).length : ℤ) := by
  intro ops
  induction ops with
  | nil =>
      intro s d hd
      exact ⟨d, hd, by simp [runOps]⟩
  | cons op ops ih =>
      intro s d hd
      obtain ⟨d1, hd1, hc1⟩ := runOp_uploadCount hd op
      obtain ⟨d2, hd2, hc2⟩ := ih (runOp s op) d1 hd1
      refine ⟨d2, ?_, ?_⟩
      · simpa [runOps] using hd2
      · rw [hc2, hc1]
        cases hb : isUploadTo id op
        · simp [List.filter_cons, hb]
        · simp [List.filter_cons, hb]
          ring

/-- C8: for a known device, `AddUpload` always succeeds — any upload value,
negative included, is accepted — incrementing `uploadCount` by exactly one
and adding the value to `uploadSum`; consequently, after any operation
sequence from initialization, `uploadCount` equals the number of
(necessarily successful) `AddUpload` calls addressed to that device. -/
theorem C8_upload_accumulates (ids : List String) (id : String)
    (hid : id ∈ ids) (ops : List Op) (t u : ℤ) :
    ∃ d, (runOps (newMemoryStore ids) ops).devices id = some d ∧
      d.uploadCount = ((ops.filter (isUploadTo id)).length : ℤ) ∧
      addUpload (runOps (newMemoryStore ids) ops) id t u =
        (none, setDevice (runOps (newMemoryStore ids) ops) id
          { d with uploadCount := d.uploadCount + 1,
                   uploadSum := d.uploadSum + (u : ℚ) }) := by
  have hd0 : (newMemoryStore ids).devices id = some DeviceAgg.empty := by
    unfold newMemoryStore
    simp [hid]
  obtain ⟨d, hd, hc⟩ := runOps_uploadCount id ops _ _ hd0
  refine ⟨d, hd, by simpa [DeviceAgg.empty] using hc, ?_⟩
  rw [addUpload_known hd]
  rfl

theorem C8_upload_accumulates_witness :
    ∃ d, (runOps (newMemoryStore ["d"])
        [Op.upload "d" 0 5, Op.heartbeat "d" 60]).devices "d" = some d ∧
      d.uploadCount =
        ((([Op.upload "d" 0 5, Op.heartbeat "d" 60].filter
          (isUploadTo "d")).length : ℤ)) ∧
      addUpload (runOps (newMemoryStore ["d"])
          [Op.upload "d" 0 5, Op.heartbeat "d" 60]) "d" 0 (-7) =
        (none, setDevice (runOps (newMemoryStore ["d"])
            [Op.upload "d" 0 5, Op.heartbeat "d" 60]) "d"
          { d with uploadCount := d.uploadCount + 1,
                   uploadSum := d.uploadSum + ((-7 : ℤ) : ℚ) }) :=
  C8_upload_accumulates ["d"] "d" (by decide)
    [Op.upload "d" 0 5, Op.heartbeat "d" 60] 0 (-7)

end DeviceFleet
